import Mathlib

/-!
Shallow embedding of the backtest simulation core of `my_quant`
(`src/trading_strategy.py`, class `MultiIndicatorStrategy` and
`run_backtest`), together with theorems settling the specification
claims about it.

Prices, cash and indicator values are modelled as rationals.  Indicator
lines are `Option ℚ` per bar: `none` models the NaN that backtrader /
TA-Lib produce before the warmup period; a Python comparison with NaN is
`False`, which the `oLt` / `oGt` helpers reproduce.  The per-bar strategy
callback `next` becomes the pure step function `nextStep` on an explicit
simulation state; the broker's order resolution (library code, described
in spec section 4.4) is modelled by `brokerStep`.
-/

/-- Order side, as in `self.buy(...)` / `self.sell(...)`. -/
inductive Side where
  | Buy
  | Sell
deriving DecidableEq, Repr

/-- An order as created by the strategy: a side and an integer size
(`size=` argument of `self.buy` / `self.sell`). -/
structure Order where
  side : Side
  size : ℤ
deriving DecidableEq, Repr

/-- Comparison `a < b` under Python float semantics where an undefined
(NaN) operand makes the comparison `False`. -/
def oLt : Option ℚ → Option ℚ → Bool
  | some a, some b => decide (a < b)
  | _, _ => false

/-- Comparison `a > b` under Python float semantics where an undefined
(NaN) operand makes the comparison `False`. -/
def oGt : Option ℚ → Option ℚ → Bool
  | some a, some b => decide (a > b)
  | _, _ => false

/-- Python `int()` applied to a rational: truncation toward zero. -/
def pyInt (q : ℚ) : ℤ := if 0 ≤ q then ⌊q⌋ else ⌈q⌉

/-- The view of one bar as the strategy reads it inside `next`:
the close (and the open used by the broker to fill pending orders),
the timestamp, and the current/previous values of each indicator line.
`j` is the strategy's J line `self.j = 3*k - 2*d` (line 50); it is kept
in the view to state that `next` never reads it. -/
structure BarView where
  close : ℚ
  openPx : ℚ
  timestamp : ℕ
  macd : Option ℚ
  macdPrev : Option ℚ
  macdSig : Option ℚ
  macdSigPrev : Option ℚ
  rsi : Option ℚ
  k : Option ℚ
  kPrev : Option ℚ
  d : Option ℚ
  dPrev : Option ℚ
  j : Option ℚ
  bollTop : Option ℚ
  bollBot : Option ℚ
deriving DecidableEq, Repr

/-- The strategy parameters read by `next` (`params` tuple, lines 8-21). -/
structure Params where
  rsi_upper : ℚ
  rsi_lower : ℚ
  risk_percent : ℚ
deriving DecidableEq, Repr

/-- Default parameter values of the `params` tuple. -/
def defaultParams : Params := { rsi_upper := 70, rsi_lower := 30, risk_percent := 2/100 }

/-- Mutable simulation state: the pending-order slot `self.order`, the
position size `self.position.size`, broker cash, the performance lists
`self.portfolio_values` / `self.dates`, and the trace of orders the
strategy has created via `self.buy` / `self.sell`. -/
structure SimState where
  order : Option Order
  posSize : ℤ
  cash : ℚ
  portfolio_values : List ℚ
  dates : List ℕ
  created : List Order
deriving DecidableEq, Repr

/-- Initial state of a run: flat, no pending order, given cash. -/
def initState (cash : ℚ) : SimState :=
  { order := none, posSize := 0, cash := cash
    portfolio_values := [], dates := [], created := [] }

/-- `self.broker.getvalue()`: cash plus position marked at the current close. -/
def getValue (b : BarView) (s : SimState) : ℚ := s.cash + s.posSize * b.close

/-- Crossover `a` above `b`: previous `a < b` and current `a > b`
(lines 105 and 109). -/
def crossUp (aPrev bPrev a b : Option ℚ) : Bool :=
  oLt aPrev bPrev && oGt a b

/-- Crossover `a` below `b`: previous `a > b` and current `a < b`
(lines 130 and 134). -/
def crossDown (aPrev bPrev a b : Option ℚ) : Bool :=
  oGt aPrev bPrev && oLt a b

/-- `any(buy_conditions)` of lines 103-114: MACD crossover above signal,
RSI below lower threshold, K crossover above D, close below lower band. -/
def buySignal (p : Params) (b : BarView) : Bool :=
  crossUp b.macdPrev b.macdSigPrev b.macd b.macdSig
    || oLt b.rsi (some p.rsi_lower)
    || crossUp b.kPrev b.dPrev b.k b.d
    || oLt (some b.close) b.bollBot

/-- `any(sell_conditions)` of lines 128-139: MACD crossover below signal,
RSI above upper threshold, K crossover below D, close above upper band. -/
def sellSignal (p : Params) (b : BarView) : Bool :=
  crossDown b.macdPrev b.macdSigPrev b.macd b.macdSig
    || oGt b.rsi (some p.rsi_upper)
    || crossDown b.kPrev b.dPrev b.k b.d
    || oGt (some b.close) b.bollTop

/-- Lines 143-145: append the current portfolio value and the bar's
timestamp to the performance lists. -/
def recordPerf (b : BarView) (s : SimState) : SimState :=
  { s with portfolio_values := s.portfolio_values ++ [getValue b s]
           dates := s.dates ++ [b.timestamp] }

/-- The position size of the buy order created on lines 117-121:
`risk_amount = broker.getvalue() * risk_percent`;
`size = max(1, int(risk_amount / (close * 1.01)))`. -/
def sizerSize (p : Params) (b : BarView) (s : SimState) : ℤ :=
  max 1 (pyInt (getValue b s * p.risk_percent / (b.close * (101/100))))

/-- `MultiIndicatorStrategy.next` (lines 96-145) as a pure step function.
Early return if an order is pending (97-98); otherwise the flat branch
evaluates the buy conditions and, on a signal, creates a buy order when
`close > 0` and returns without recording when `close ≤ 0` (119-124);
the long branch creates a sell order for the full position size on a sell
signal (139-141); every path that does not return early appends one
performance record (143-145). -/
def nextStep (p : Params) (b : BarView) (s : SimState) : SimState :=
  if s.order.isSome then s
  else if s.posSize = 0 then
    if buySignal p b then
      if 0 < b.close then
        let o : Order := { side := Side.Buy, size := sizerSize p b s }
        recordPerf b { s with order := some o, created := s.created ++ [o] }
      else s
    else recordPerf b s
  else
    if sellSignal p b then
      let o : Order := { side := Side.Sell, size := s.posSize }
      recordPerf b { s with order := some o, created := s.created ++ [o] }
    else recordPerf b s

/-- What the broker does with the pending order on a bar: fill it,
cancel/reject it, or leave it outstanding (still Submitted/Accepted). -/
inductive BrokerAct where
  | fill
  | reject
  | keep
deriving DecidableEq, Repr

/-- Modelled from the spec: the broker half of the Order/Portfolio
Simulator (spec section 4.4), which in the source is backtrader library
code, not `src/`.  A pending order resolves at the bar's execution price
(next bar's open, the spec's recommended choice) with commission
`fill_value x commission_rate` deducted from cash on a buy and from the
proceeds on a sell; a canceled/margin/rejected order just clears the slot
(`notify_order`, lines 81-84); an order still Submitted/Accepted leaves
the slot untouched (lines 69-70). -/
def brokerStep (commRate : ℚ) (b : BarView) (act : BrokerAct) (s : SimState) : SimState :=
  match s.order, act with
  | none, _ => s
  | some _, BrokerAct.keep => s
  | some _, BrokerAct.reject => { s with order := none }
  | some o, BrokerAct.fill =>
    match o.side with
    | Side.Buy =>
      { s with order := none
               posSize := s.posSize + o.size
               cash := s.cash - o.size * b.openPx * (1 + commRate) }
    | Side.Sell =>
      { s with order := none
               posSize := s.posSize - o.size
               cash := s.cash + o.size * b.openPx * (1 - commRate) }

/-- One simulated bar as fed to the driver: the strategy's view of the
bar plus the broker's resolution of whatever order is pending. -/
structure SimInput where
  bar : BarView
  act : BrokerAct
deriving DecidableEq, Repr

/-- One full bar of the simulation loop: the broker resolves the pending
order first (notifications are delivered before the strategy callback),
then `next` runs. -/
def simStep (p : Params) (commRate : ℚ) (i : SimInput) (s : SimState) : SimState :=
  nextStep p i.bar (brokerStep commRate i.bar i.act s)

/-- The whole run: a strict left fold of `simStep` over the bar series. -/
def runSim (p : Params) (commRate : ℚ) (inputs : List SimInput) (s : SimState) : SimState :=
  inputs.foldl (fun s i => simStep p commRate i s) s

/-- `run_backtest` (lines 147-205) up to its input validation: it refuses
to run only when the fetched frame is `None` or empty (lines 156-158) and
otherwise simulates with initial cash 100000 and commission 0.001
(lines 175, 181); no sortedness or price/volume positivity check exists. -/
def runBacktest (df : Option (List SimInput)) : Option SimState :=
  match df with
  | none => none
  | some inputs =>
    if inputs.isEmpty then none
    else some (runSim defaultParams (1/1000) inputs (initState 100000))

/-- A quiet bar: all indicator lines undefined, no broker action needed. -/
def quietBar (closePx openPx : ℚ) (t : ℕ) : BarView :=
  { close := closePx, openPx := openPx, timestamp := t
    macd := none, macdPrev := none, macdSig := none, macdSigPrev := none
    rsi := none, k := none, kPrev := none, d := none, dPrev := none
    j := none, bollTop := none, bollBot := none }

/-- A state with a pending buy order, used to witness C4. -/
def pendingState : SimState :=
  { order := some { side := Side.Buy, size := 5 }, posSize := 0, cash := 1000
    portfolio_values := [], dates := [], created := [] }

/-- A long state holding 5 shares with no pending order, witnessing C6. -/
def longState : SimState :=
  { order := none, posSize := 5, cash := 50
    portfolio_values := [], dates := [], created := [] }

/-- A bar whose RSI reads 80, above the default upper threshold 70,
so the RSI sell condition fires. -/
def rsiHighBar : BarView := { quietBar 10 10 3 with rsi := some 80 }

/-- A bar whose RSI reads 20, below the default lower threshold 30,
with a positive close, so the RSI buy condition fires and sizing runs. -/
def rsiLowBar : BarView := { quietBar 100 100 2 with rsi := some 20 }

/-- A bar with a defined current MACD pair but undefined previous pair,
as on the first bar after the MACD warmup. -/
def freshMacdBar : BarView :=
  { quietBar 10 10 4 with macd := some 2, macdSig := some 1 }

/-- A bar with close 0 whose RSI reads 20: the RSI buy condition fires
but the sizing guard `close > 0` fails. -/
def zeroCloseBar : BarView := { quietBar 0 0 0 with rsi := some 20 }

/-- The zero-close buy-signal bar packaged as one simulation input. -/
def zeroCloseInput : SimInput := { bar := zeroCloseBar, act := BrokerAct.fill }

/-- A bar with a negative close, as a data feed with corrupt prices would
deliver; `run_backtest` performs no price validation. -/
def negPriceInput : SimInput := { bar := quietBar (-5) (-5) 0, act := BrokerAct.fill }

/-- Orders sitting in the pending slot are well-formed: non-negative
size, and a sell order never exceeds the current position. -/
def goodOrders (s : SimState) : Prop :=
  ∀ o, s.order = some o → 0 ≤ o.size ∧ (o.side = Side.Sell → o.size ≤ s.posSize)

/-- The no-leverage state invariant: non-negative cash, non-negative
position, well-formed pending order. -/
def StateOK (s : SimState) : Prop := 0 ≤ s.cash ∧ 0 ≤ s.posSize ∧ goodOrders s

/-- A pending buy order about to fill on this bar costs at most the cash
on hand (fill value plus commission). -/
def affordableFill (commRate : ℚ) (i : SimInput) (s : SimState) : Prop :=
  ∀ o, s.order = some o → o.side = Side.Buy → i.act = BrokerAct.fill →
    o.size * i.bar.openPx * (1 + commRate) ≤ s.cash

/-- First bar of the C8 run: close 100, RSI 20 fires the buy condition. -/
def c8Bar1 : BarView := { quietBar 100 100 0 with rsi := some 20 }

/-- First input of the C8 run. -/
def c8Input1 : SimInput := { bar := c8Bar1, act := BrokerAct.fill }

/-- Second input of the C8 run: the buy fills at open 100, then the
close collapses to 0. -/
def c8Input2 : SimInput := { bar := quietBar 0 100 1, act := BrokerAct.fill }

/-- The state after the first C8 bar: a 1-share buy order is pending
(max(1, floor(100 x 0.02 / 101)) = 1) and the value 100 was recorded. -/
def c8State1 : SimState :=
  { order := some { side := Side.Buy, size := 1 }, posSize := 0, cash := 100
    portfolio_values := [100], dates := [0], created := [{ side := Side.Buy, size := 1 }] }

/-- Modelled from the spec: the gains series — upward moves between
consecutive closes — fed to Wilder's smoothing (spec section 4.1: RSI is
Wilder's smoothed average of gains/losses over period bars; the RSI
computation itself is backtesting-library code, absent from src/). -/
def upMoves : List ℚ → List ℚ
  | a :: b :: rest => max (b - a) 0 :: upMoves (b :: rest)
  | _ => []

/-- Modelled from the spec: the losses series — downward moves between
consecutive closes. -/
def downMoves : List ℚ → List ℚ
  | a :: b :: rest => max (a - b) 0 :: downMoves (b :: rest)
  | _ => []

/-- Modelled from the spec: one step of Wilder's smoothing,
new_avg = (avg x (period - 1) + x) / period. -/
def wilderSmooth (period : ℕ) (avg x : ℚ) : ℚ :=
  (avg * ((period : ℚ) - 1) + x) / (period : ℚ)

/-- Modelled from the spec: running Wilder averages over further moves. -/
def wilderFrom (period : ℕ) (avg : ℚ) : List ℚ → List ℚ
  | [] => []
  | x :: rest => wilderSmooth period avg x :: wilderFrom period (wilderSmooth period avg x) rest

/-- Modelled from the spec: the Wilder average series, seeded by a simple
average of the first period moves and smoothed over the rest. -/
def wilderAvgs (period : ℕ) (moves : List ℚ) : List ℚ :=
  ((moves.take period).sum / (period : ℚ))
    :: wilderFrom period ((moves.take period).sum / (period : ℚ)) (moves.drop period)

/-- Modelled from the spec: RSI from the smoothed gain/loss averages,
100 x AG / (AG + AL), with 50 as the flat-window fallback. -/
def rsiOf (avgUp avgDown : ℚ) : ℚ :=
  if avgUp + avgDown = 0 then 50 else 100 * avgUp / (avgUp + avgDown)

/-- Pointwise RSI over paired gain/loss average series. -/
def rsiZip : List ℚ → List ℚ → List (Option ℚ)
  | u :: us, dn :: ds => some (rsiOf u dn) :: rsiZip us ds
  | _, _ => []

/-- Modelled from the spec: the RSI indicator output aligned with the
price series — undefined for the first period positions (warmup), then
Wilder RSI values. -/
def rsiSeries (period : ℕ) (prices : List ℚ) : List (Option ℚ) :=
  (List.replicate period none
    ++ rsiZip (wilderAvgs period (upMoves prices)) (wilderAvgs period (downMoves prices))).take
    prices.length

/-! ## Helper lemmas -/

theorem recordPerf_order (b : BarView) (s : SimState) : (recordPerf b s).order = s.order := rfl

theorem recordPerf_posSize (b : BarView) (s : SimState) :
    (recordPerf b s).posSize = s.posSize := rfl

theorem recordPerf_cash (b : BarView) (s : SimState) : (recordPerf b s).cash = s.cash := rfl

theorem recordPerf_pv (b : BarView) (s : SimState) :
    (recordPerf b s).portfolio_values = s.portfolio_values ++ [getValue b s] := rfl

theorem recordPerf_dates (b : BarView) (s : SimState) :
    (recordPerf b s).dates = s.dates ++ [b.timestamp] := rfl

theorem oLt_none_left (y : Option ℚ) : oLt none y = false := rfl

theorem oLt_none_right (x : Option ℚ) : oLt x none = false := by cases x <;> rfl

theorem oGt_none_left (y : Option ℚ) : oGt none y = false := rfl

theorem oGt_none_right (x : Option ℚ) : oGt x none = false := by cases x <;> rfl

/-- Clamping at 1 erases the difference between Python truncation and
mathematical floor: for a non-negative argument they agree, and for a
negative argument both truncation and floor are below 1. -/
theorem max_one_pyInt (q : ℚ) : max 1 (pyInt q) = max 1 ⌊q⌋ := by
  unfold pyInt
  split
  · rfl
  · rename_i h
    have hq : q ≤ 0 := le_of_lt (lt_of_not_le h)
    have h1 : ⌈q⌉ ≤ 0 := Int.ceil_le.mpr (by exact_mod_cast hq)
    have h2 : ⌊q⌋ ≤ ⌈q⌉ := Int.floor_le_ceil q
    omega

theorem runSim_nil (p : Params) (c : ℚ) (s : SimState) : runSim p c [] s = s := rfl

theorem runSim_cons (p : Params) (c : ℚ) (i : SimInput) (rest : List SimInput) (s : SimState) :
    runSim p c (i :: rest) s = runSim p c rest (simStep p c i s) := rfl

/-! ## Claim theorems -/

/-- C4: at most one order is outstanding at any bar index.  The pending
slot is a single `Option Order`; while it is occupied, `next` returns at
once, so no Buy/Sell signal creates a second order and the state
(including the trace of created orders) is untouched; the broker leaves
the slot occupied while the order is merely Submitted/Accepted, and
clears it exactly when the order completes or is canceled/rejected. -/
theorem pending_order_exclusion (p : Params) (commRate : ℚ) (b : BarView)
    (s : SimState) (o : Order) (hord : s.order = some o) :
    nextStep p b s = s ∧
    (brokerStep commRate b BrokerAct.keep s).order = some o ∧
    (brokerStep commRate b BrokerAct.fill s).order = none ∧
    (brokerStep commRate b BrokerAct.reject s).order = none := by
  refine ⟨?_, ?_, ?_, ?_⟩
  · simp [nextStep, hord]
  · simp [brokerStep, hord]
  · cases o with
    | mk side size => cases side <;> simp [brokerStep, hord]
  · simp [brokerStep, hord]

/-- Witness for C4 at a concrete pending state and bar. -/
theorem pending_order_exclusion_witness :
    nextStep defaultParams (quietBar 10 10 0) pendingState = pendingState ∧
    (brokerStep (1/1000) (quietBar 10 10 0) BrokerAct.keep pendingState).order
      = some { side := Side.Buy, size := 5 } ∧
    (brokerStep (1/1000) (quietBar 10 10 0) BrokerAct.fill pendingState).order = none ∧
    (brokerStep (1/1000) (quietBar 10 10 0) BrokerAct.reject pendingState).order = none :=
  pending_order_exclusion defaultParams (1/1000) (quietBar 10 10 0) pendingState
    { side := Side.Buy, size := 5 } rfl

/-- C6: on a sell signal in the long state with no pending order, the
created sell order carries the full current position size (line 141),
and filling that order brings the position size back to zero, closing
the round trip to the flat state. -/
theorem sell_full_position (p : Params) (b : BarView) (s : SimState)
    (hord : s.order = none) (hpos : s.posSize ≠ 0) (hsig : sellSignal p b = true) :
    (nextStep p b s).order = some { side := Side.Sell, size := s.posSize } ∧
    (nextStep p b s).posSize = s.posSize ∧
    ∀ (commRate : ℚ) (b2 : BarView),
      (brokerStep commRate b2 BrokerAct.fill (nextStep p b s)).posSize = 0 := by
  have hstep : nextStep p b s =
      recordPerf b { s with order := some { side := Side.Sell, size := s.posSize }, created := s.created ++ [{ side := Side.Sell, size := s.posSize }] } := by
    simp [nextStep, hord, hpos, hsig]
  refine ⟨by rw [hstep]; rfl, by rw [hstep]; rfl, ?_⟩
  intro commRate b2
  rw [hstep]
  simp [brokerStep, recordPerf]

/-- Witness for C6: from a 5-share long state on an RSI-above-70 bar,
a sell order for 5 shares is created and its fill flattens the position. -/
theorem sell_full_position_witness :
    (nextStep defaultParams rsiHighBar longState).order
      = some { side := Side.Sell, size := longState.posSize } ∧
    (nextStep defaultParams rsiHighBar longState).posSize = longState.posSize ∧
    ∀ (commRate : ℚ) (b2 : BarView),
      (brokerStep commRate b2 BrokerAct.fill (nextStep defaultParams rsiHighBar longState)).posSize
        = 0 :=
  sell_full_position defaultParams rsiHighBar longState rfl (by norm_num [longState])
    (by norm_num [sellSignal, rsiHighBar, quietBar, crossDown, oLt, oGt, defaultParams])

/-- C10: the J line is dead to the simulation.  Reassigning every bar's
J value arbitrarily (including leaving it undefined) yields a run with
exactly the same final state — in particular the same created-order
trace and the same recorded portfolio values and dates. -/
theorem j_line_irrelevant (p : Params) (commRate : ℚ) (f : SimInput → Option ℚ)
    (inputs : List SimInput) (s : SimState) :
    runSim p commRate
        (inputs.map fun i => { i with bar := { i.bar with j := f i } }) s
      = runSim p commRate inputs s := by
  induction inputs generalizing s with
  | nil => rfl
  | cons i rest ih => exact ih (simStep p commRate i s)

/-- C2: the position sizer of lines 116-124.  With a positive close the
created buy order has size max(1, floor(equity x risk_percent /
(close x 1.01))), which is at least 1; with a non-positive close the step
returns without creating an order, and since the step leaves the state
untouched the run over the remaining bars proceeds exactly as if the bad
bar were not there — the failure is never fatal. -/
theorem sizer_spec (p : Params) (b : BarView) (s : SimState) (commRate : ℚ)
    (i : SimInput) (rest : List SimInput)
    (hord : s.order = none) (hflat : s.posSize = 0) (hsig : buySignal p b = true) :
    (0 < b.close →
      (nextStep p b s).order =
        some { side := Side.Buy
               size := max 1 ⌊getValue b s * p.risk_percent / (b.close * (101/100))⌋ } ∧
      ∀ o, (nextStep p b s).order = some o → 1 ≤ o.size) ∧
    (b.close ≤ 0 →
      nextStep p b s = s ∧
      (i.bar = b → runSim p commRate (i :: rest) s = runSim p commRate rest s)) := by
  constructor
  · intro hpos
    have hstep : nextStep p b s =
        recordPerf b { s with order := some { side := Side.Buy, size := sizerSize p b s }, created := s.created ++ [{ side := Side.Buy, size := sizerSize p b s }] } := by
      simp [nextStep, hord, hflat, hsig, hpos]
    constructor
    · rw [hstep, recordPerf_order]
      simp [sizerSize, max_one_pyInt]
    · intro o ho
      rw [hstep, recordPerf_order] at ho
      simp at ho
      rw [← ho]
      exact le_max_left 1 _
  · intro hneg
    have hstep : nextStep p b s = s := by
      have : ¬ (0 < b.close) := not_lt.mpr hneg
      simp [nextStep, hord, hflat, hsig, this]
    refine ⟨hstep, ?_⟩
    intro hib
    rw [runSim_cons]
    have : simStep p commRate i s = s := by
      simp [simStep, brokerStep, hord, hib, hstep]
    rw [this]

/-- Witness for C2 at a concrete flat state and RSI-below-30 bar with
close 100 (the non-positive-close conjunct holds vacuously there). -/
theorem sizer_spec_witness :
    (0 < rsiLowBar.close →
      (nextStep defaultParams rsiLowBar (initState 100000)).order =
        some { side := Side.Buy
               size := max 1 ⌊getValue rsiLowBar (initState 100000) * defaultParams.risk_percent / (rsiLowBar.close * (101/100))⌋ } ∧
      ∀ o, (nextStep defaultParams rsiLowBar (initState 100000)).order = some o → 1 ≤ o.size) ∧
    (rsiLowBar.close ≤ 0 →
      nextStep defaultParams rsiLowBar (initState 100000) = initState 100000 ∧
      ({ bar := rsiLowBar, act := BrokerAct.fill : SimInput }.bar = rsiLowBar →
        runSim defaultParams (1/1000) [{ bar := rsiLowBar, act := BrokerAct.fill }] (initState 100000)
          = runSim defaultParams (1/1000) [] (initState 100000))) :=
  sizer_spec defaultParams rsiLowBar (initState 100000) (1/1000)
    { bar := rsiLowBar, act := BrokerAct.fill } [] rfl rfl
    (by norm_num [buySignal, rsiLowBar, quietBar, crossUp, oLt, oGt, defaultParams])

/-- C5: crossover detection needs two consecutive defined values.  If any
of the four operands of a crossover (previous/current value of either
line) is undefined, both the upward and the downward crossover evaluate
to false, and the buy/sell signals degenerate to the disjunction of the
remaining conditions — no signal ever comes from the undefined crossover.
Instantiating the operands with the MACD or stochastic lines of a bar
view covers both crossovers of the strategy. -/
theorem crossover_requires_defined (aPrev bPrev a b : Option ℚ)
    (h : aPrev = none ∨ bPrev = none ∨ a = none ∨ b = none) :
    (crossUp aPrev bPrev a b = false ∧ crossDown aPrev bPrev a b = false) ∧
    (∀ (p : Params) (v : BarView),
      v.macdPrev = aPrev → v.macdSigPrev = bPrev → v.macd = a → v.macdSig = b →
      buySignal p v =
        (oLt v.rsi (some p.rsi_lower) || crossUp v.kPrev v.dPrev v.k v.d
          || oLt (some v.close) v.bollBot) ∧
      sellSignal p v =
        (oGt v.rsi (some p.rsi_upper) || crossDown v.kPrev v.dPrev v.k v.d
          || oGt (some v.close) v.bollTop)) ∧
    (∀ (p : Params) (v : BarView),
      v.kPrev = aPrev → v.dPrev = bPrev → v.k = a → v.d = b →
      buySignal p v =
        (crossUp v.macdPrev v.macdSigPrev v.macd v.macdSig
          || oLt v.rsi (some p.rsi_lower) || oLt (some v.close) v.bollBot) ∧
      sellSignal p v =
        (crossDown v.macdPrev v.macdSigPrev v.macd v.macdSig
          || oGt v.rsi (some p.rsi_upper) || oGt (some v.close) v.bollTop)) := by
  have hcross : crossUp aPrev bPrev a b = false ∧ crossDown aPrev bPrev a b = false := by
    rcases h with h | h | h | h <;> subst h <;>
      simp [crossUp, crossDown, oLt_none_left, oLt_none_right, oGt_none_left, oGt_none_right]
  refine ⟨hcross, ?_, ?_⟩
  · intro p v h1 h2 h3 h4
    constructor
    · rw [buySignal, h1, h2, h3, h4, hcross.1]
      simp [Bool.or_assoc]
    · rw [sellSignal, h1, h2, h3, h4, hcross.2]
      simp [Bool.or_assoc]
  · intro p v h1 h2 h3 h4
    constructor
    · rw [buySignal, h1, h2, h3, h4, hcross.1]
      simp [Bool.or_assoc, Bool.or_comm, Bool.or_left_comm]
    · rw [sellSignal, h1, h2, h3, h4, hcross.2]
      simp [Bool.or_assoc, Bool.or_comm, Bool.or_left_comm]

/-- Witness for C5: with the previous MACD value undefined, neither
crossover fires on the fresh-MACD bar and its buy/sell signals reduce to
the non-MACD conditions. -/
theorem crossover_requires_defined_witness :
    (crossUp freshMacdBar.macdPrev freshMacdBar.macdSigPrev freshMacdBar.macd freshMacdBar.macdSig = false ∧
     crossDown freshMacdBar.macdPrev freshMacdBar.macdSigPrev freshMacdBar.macd freshMacdBar.macdSig = false) ∧
    (∀ (p : Params) (v : BarView),
      v.macdPrev = freshMacdBar.macdPrev → v.macdSigPrev = freshMacdBar.macdSigPrev →
      v.macd = freshMacdBar.macd → v.macdSig = freshMacdBar.macdSig →
      buySignal p v =
        (oLt v.rsi (some p.rsi_lower) || crossUp v.kPrev v.dPrev v.k v.d
          || oLt (some v.close) v.bollBot) ∧
      sellSignal p v =
        (oGt v.rsi (some p.rsi_upper) || crossDown v.kPrev v.dPrev v.k v.d
          || oGt (some v.close) v.bollTop)) ∧
    (∀ (p : Params) (v : BarView),
      v.kPrev = freshMacdBar.macdPrev → v.dPrev = freshMacdBar.macdSigPrev →
      v.k = freshMacdBar.macd → v.d = freshMacdBar.macdSig →
      buySignal p v =
        (crossUp v.macdPrev v.macdSigPrev v.macd v.macdSig
          || oLt v.rsi (some p.rsi_lower) || oLt (some v.close) v.bollBot) ∧
      sellSignal p v =
        (crossDown v.macdPrev v.macdSigPrev v.macd v.macdSig
          || oGt v.rsi (some p.rsi_upper) || oGt (some v.close) v.bollTop)) :=
  crossover_requires_defined freshMacdBar.macdPrev freshMacdBar.macdSigPrev
    freshMacdBar.macd freshMacdBar.macdSig (Or.inl rfl)

/-- C1 counterexample: a run over one bar on which a buy condition holds
but the close is non-positive appends no performance record at all, so
the performance record does not have one entry per simulated bar. -/
theorem perf_record_missing_bar :
    (runSim defaultParams (1/1000) [zeroCloseInput] (initState 100000)).portfolio_values = [] ∧
    (runSim defaultParams (1/1000) [zeroCloseInput] (initState 100000)).dates = [] ∧
    [zeroCloseInput].length = 1 := by
  have hsig : buySignal defaultParams zeroCloseBar = true := by
    norm_num [buySignal, zeroCloseBar, quietBar, crossUp, oLt, oGt, defaultParams]
  have hclose : ¬ (0 < zeroCloseBar.close) := by norm_num [zeroCloseBar, quietBar]
  have hrun : runSim defaultParams (1/1000) [zeroCloseInput] (initState 100000)
      = initState 100000 := by
    rw [runSim_cons, runSim_nil]
    simp [simStep, zeroCloseInput, brokerStep, initState, nextStep, hsig, hclose]
  rw [hrun]
  exact ⟨rfl, rfl, rfl⟩

/-- C1 amended: `next` appends exactly one record {timestamp, cash +
position.size x close} on every bar on which it does not return early,
i.e. every bar entered without a pending order and not hitting the
non-positive-close sizing guard under a buy signal; on a bar entered with
a pending order, or on a flat-state bar whose buy signal fires at a
non-positive close, it appends nothing. -/
theorem perf_record_per_bar (p : Params) (b : BarView) (s : SimState) :
    ((s.order = none ∧ ¬(s.posSize = 0 ∧ buySignal p b = true ∧ b.close ≤ 0)) →
      (nextStep p b s).portfolio_values = s.portfolio_values ++ [getValue b s] ∧
      (nextStep p b s).dates = s.dates ++ [b.timestamp]) ∧
    ((s.order ≠ none ∨ (s.posSize = 0 ∧ buySignal p b = true ∧ b.close ≤ 0)) →
      nextStep p b s = s) := by
  constructor
  · rintro ⟨hord, hskip⟩
    by_cases hflat : s.posSize = 0
    · by_cases hsig : buySignal p b = true
      · have hpos : 0 < b.close := by
          by_contra hle
          exact hskip ⟨hflat, hsig, not_lt.mp hle⟩
        simp [nextStep, hord, hflat, hsig, hpos, recordPerf, getValue]
      · simp [nextStep, hord, hflat, hsig, recordPerf, getValue]
    · by_cases hsig : sellSignal p b = true
      · simp [nextStep, hord, hflat, hsig, recordPerf, getValue]
      · simp [nextStep, hord, hflat, hsig, recordPerf, getValue]
  · rintro (hord | ⟨hflat, hsig, hle⟩)
    · rcases ho : s.order with _ | o
      · exact absurd ho hord
      · simp [nextStep, ho]
    · have : ¬ (0 < b.close) := not_lt.mpr hle
      simp [nextStep, hflat, hsig, this]

/-- Witness for C1 amended: on a quiet bar from the initial state, next
appends the single record {7, 100}. -/
theorem perf_record_per_bar_witness :
    (nextStep defaultParams (quietBar 10 10 7) (initState 100)).portfolio_values
      = (initState 100).portfolio_values ++ [getValue (quietBar 10 10 7) (initState 100)] ∧
    (nextStep defaultParams (quietBar 10 10 7) (initState 100)).dates
      = (initState 100).dates ++ [7] :=
  (perf_record_per_bar defaultParams (quietBar 10 10 7) (initState 100)).1
    ⟨rfl, by norm_num [buySignal, quietBar, crossUp, oLt, oGt, defaultParams]⟩

/-- C3 counterexample: on the zero-close bar the RSI buy condition holds,
the state is flat with no pending order, and yet no buy order is created
— refuting the claimed "if and only if". -/
theorem buy_iff_counterexample :
    buySignal defaultParams zeroCloseBar = true ∧
    (initState 100000).posSize = 0 ∧
    (initState 100000).order = none ∧
    (nextStep defaultParams zeroCloseBar (initState 100000)).order = none ∧
    (nextStep defaultParams zeroCloseBar (initState 100000)).created = [] := by
  have hsig : buySignal defaultParams zeroCloseBar = true := by
    norm_num [buySignal, zeroCloseBar, quietBar, crossUp, oLt, oGt, defaultParams]
  have hclose : ¬ (0 < zeroCloseBar.close) := by norm_num [zeroCloseBar, quietBar]
  have hstep : nextStep defaultParams zeroCloseBar (initState 100000) = initState 100000 := by
    simp [nextStep, initState, hsig, hclose]
  exact ⟨hsig, rfl, rfl, by rw [hstep]; rfl, by rw [hstep]; rfl⟩

/-- C3 amended: with no pending order, a buy order is created in the flat
state iff some buy condition holds AND the close is positive (the sizing
guard of line 119); a sell order for the full position size is created in
the long state iff some sell condition holds — the sell side needs no
price guard. -/
theorem signal_iff_order (p : Params) (b : BarView) (s : SimState)
    (hord : s.order = none) :
    (s.posSize = 0 →
      ((∃ n, (nextStep p b s).order = some { side := Side.Buy, size := n }) ↔
        (buySignal p b = true ∧ 0 < b.close))) ∧
    (s.posSize ≠ 0 →
      ((nextStep p b s).order = some { side := Side.Sell, size := s.posSize } ↔
        sellSignal p b = true)) := by
  constructor
  · intro hflat
    constructor
    · rintro ⟨n, hn⟩
      by_cases hsig : buySignal p b = true
      · by_cases hpos : 0 < b.close
        · exact ⟨hsig, hpos⟩
        · simp [nextStep, hord, hflat, hsig, hpos] at hn
      · simp [nextStep, hord, hflat, hsig, recordPerf] at hn
    · rintro ⟨hsig, hpos⟩
      refine ⟨sizerSize p b s, ?_⟩
      simp [nextStep, hord, hflat, hsig, hpos, recordPerf]
  · intro hlong
    constructor
    · intro hn
      by_cases hsig : sellSignal p b = true
      · exact hsig
      · simp [nextStep, hord, hlong, hsig, recordPerf] at hn
    · intro hsig
      simp [nextStep, hord, hlong, hsig, recordPerf]

/-- Witness for C3 amended at a flat state on the RSI-below-30 bar with
positive close, and at a long state on the RSI-above-70 bar. -/
theorem signal_iff_order_witness :
    ((initState 100000).posSize = 0 →
      ((∃ n, (nextStep defaultParams rsiLowBar (initState 100000)).order
          = some { side := Side.Buy, size := n }) ↔
        (buySignal defaultParams rsiLowBar = true ∧ 0 < rsiLowBar.close))) ∧
    ((initState 100000).posSize ≠ 0 →
      ((nextStep defaultParams rsiLowBar (initState 100000)).order
          = some { side := Side.Sell, size := (initState 100000).posSize } ↔
        sellSignal defaultParams rsiLowBar = true)) :=
  signal_iff_order defaultParams rsiLowBar (initState 100000) rfl

/-- C7 counterexample: a one-bar series with a negative close passes the
only input check `run_backtest` has (`df is None or df.empty`), the
simulation runs, and a performance record is produced — the run does not
refuse to start on non-positive prices. -/
theorem input_validation_counterexample :
    negPriceInput.bar.close < 0 ∧
    runBacktest (some [negPriceInput])
      = some (runSim defaultParams (1/1000) [negPriceInput] (initState 100000)) ∧
    (runSim defaultParams (1/1000) [negPriceInput] (initState 100000)).portfolio_values
      = [100000] := by
  refine ⟨by norm_num [negPriceInput, quietBar], rfl, ?_⟩
  have hsig : buySignal defaultParams (quietBar (-5) (-5) 0) = false := by
    norm_num [buySignal, quietBar, crossUp, oLt, oGt, defaultParams]
  have hstep : runSim defaultParams (1/1000) [negPriceInput] (initState 100000)
      = recordPerf (quietBar (-5) (-5) 0) (initState 100000) := by
    rw [runSim_cons, runSim_nil]
    simp [simStep, negPriceInput, brokerStep, initState, nextStep, hsig]
  rw [hstep, recordPerf_pv]
  norm_num [getValue, initState, quietBar]

/-- C7 amended: the only input condition under which the backtest refuses
to run is a missing or empty bar series (lines 156-158); any non-empty
series — sorted or not, with non-positive prices or volumes or not — is
simulated with initial cash 100000 and commission 0.001. -/
theorem backtest_validation (inputs : List SimInput) (h : inputs ≠ []) :
    runBacktest none = none ∧
    runBacktest (some []) = none ∧
    runBacktest (some inputs)
      = some (runSim defaultParams (1/1000) inputs (initState 100000)) := by
  refine ⟨rfl, rfl, ?_⟩
  simp [runBacktest, h]

/-- Witness for C7 amended at the one-bar negative-price series. -/
theorem backtest_validation_witness :
    runBacktest none = none ∧
    runBacktest (some []) = none ∧
    runBacktest (some [negPriceInput])
      = some (runSim defaultParams (1/1000) [negPriceInput] (initState 100000)) :=
  backtest_validation [negPriceInput] (by simp)

theorem brokerStep_ok (commRate : ℚ) (b : BarView) (act : BrokerAct) (s : SimState)
    (hs : StateOK s) (hopen : 0 ≤ b.openPx) (_hc0 : 0 ≤ commRate) (hc1 : commRate ≤ 1)
    (haff : ∀ o, s.order = some o → o.side = Side.Buy → act = BrokerAct.fill →
      o.size * b.openPx * (1 + commRate) ≤ s.cash) :
    StateOK (brokerStep commRate b act s) := by
  obtain ⟨hcash, hpos, hords⟩ := hs
  rcases ho : s.order with _ | o
  · simpa [brokerStep, ho] using ⟨hcash, hpos, hords⟩
  · obtain ⟨hsize, hsell⟩ := hords o ho
    cases act with
    | keep => simpa [brokerStep, ho] using ⟨hcash, hpos, hords⟩
    | reject =>
      refine ⟨?_, ?_, ?_⟩
      · simpa [brokerStep, ho] using hcash
      · simpa [brokerStep, ho] using hpos
      · intro o2 ho2
        simp [brokerStep, ho] at ho2
    | fill =>
      cases hside : o.side with
      | Buy =>
        refine ⟨?_, ?_, ?_⟩
        · have := haff o ho hside rfl
          simp [brokerStep, ho, hside]
          linarith
        · have : (0:ℤ) ≤ o.size := hsize
          simp [brokerStep, ho, hside]
          omega
        · intro o2 ho2
          simp [brokerStep, ho, hside] at ho2
      | Sell =>
        refine ⟨?_, ?_, ?_⟩
        · have h1 : (0:ℚ) ≤ (o.size : ℚ) := by exact_mod_cast hsize
          have h2 : (0:ℚ) ≤ 1 - commRate := by linarith
          have h3 : (0:ℚ) ≤ (o.size : ℚ) * b.openPx * (1 - commRate) :=
            mul_nonneg (mul_nonneg h1 hopen) h2
          simp [brokerStep, ho, hside]
          linarith
        · have := hsell hside
          simp [brokerStep, ho, hside]
          omega
        · intro o2 ho2
          simp [brokerStep, ho, hside] at ho2

theorem nextStep_ok (p : Params) (b : BarView) (s : SimState) (hs : StateOK s) :
    StateOK (nextStep p b s) := by
  obtain ⟨hcash, hpos, hords⟩ := hs
  rcases ho : s.order with _ | o0
  · by_cases hflat : s.posSize = 0
    · by_cases hsig : buySignal p b = true
      · by_cases hcl : 0 < b.close
        · have hstep : nextStep p b s =
              recordPerf b { s with order := some { side := Side.Buy, size := sizerSize p b s }, created := s.created ++ [{ side := Side.Buy, size := sizerSize p b s }] } := by
            simp [nextStep, ho, hflat, hsig, hcl]
          rw [hstep]
          refine ⟨hcash, hpos, ?_⟩
          intro o hoo
          rw [recordPerf_order] at hoo
          simp only [] at hoo
          injection hoo with h2
          subst h2
          refine ⟨le_trans zero_le_one (le_max_left 1 _), ?_⟩
          intro hside
          exact Side.noConfusion hside
        · have hstep : nextStep p b s = s := by simp [nextStep, ho, hflat, hsig, hcl]
          rw [hstep]
          exact ⟨hcash, hpos, hords⟩
      · have hstep : nextStep p b s = recordPerf b s := by simp [nextStep, ho, hflat, hsig]
        rw [hstep]
        refine ⟨hcash, hpos, ?_⟩
        intro o hoo
        rw [recordPerf_order, ho] at hoo
        cases hoo
    · by_cases hsig : sellSignal p b = true
      · have hstep : nextStep p b s =
            recordPerf b { s with order := some { side := Side.Sell, size := s.posSize }, created := s.created ++ [{ side := Side.Sell, size := s.posSize }] } := by
          simp [nextStep, ho, hflat, hsig]
        rw [hstep]
        refine ⟨hcash, hpos, ?_⟩
        intro o hoo
        rw [recordPerf_order] at hoo
        simp only [] at hoo
        injection hoo with h2
        subst h2
        exact ⟨hpos, fun _ => le_refl s.posSize⟩
      · have hstep : nextStep p b s = recordPerf b s := by simp [nextStep, ho, hflat, hsig]
        rw [hstep]
        refine ⟨hcash, hpos, ?_⟩
        intro o hoo
        rw [recordPerf_order, ho] at hoo
        cases hoo
  · have hstep : nextStep p b s = s := by simp [nextStep, ho]
    rw [hstep]
    exact ⟨hcash, hpos, hords⟩

/-- C8 amended: for non-negative bar prices, commission rate in [0, 1],
and a well-formed state (non-negative cash and position, well-formed
pending order), one simulation step preserves the invariant and leaves
equity cash + position x close non-negative — provided any buy order
filling on the bar costs at most the cash on hand.  Dropping that proviso
the claim fails: the sizer floor of max(1, ...) lets a buy fill cost more
than equity, driving equity negative. -/
theorem equity_nonneg_step (p : Params) (commRate : ℚ) (i : SimInput) (s : SimState)
    (hs : StateOK s) (hopen : 0 ≤ i.bar.openPx) (hclose : 0 ≤ i.bar.close)
    (hc0 : 0 ≤ commRate) (hc1 : commRate ≤ 1) (haff : affordableFill commRate i s) :
    StateOK (simStep p commRate i s) ∧ 0 ≤ getValue i.bar (simStep p commRate i s) := by
  have h1 : StateOK (brokerStep commRate i.bar i.act s) :=
    brokerStep_ok commRate i.bar i.act s hs hopen hc0 hc1 haff
  have h2 : StateOK (simStep p commRate i s) := nextStep_ok p i.bar _ h1
  refine ⟨h2, ?_⟩
  obtain ⟨hcash, hpos, _⟩ := h2
  have hval : (0:ℚ) ≤ ((simStep p commRate i s).posSize : ℚ) * i.bar.close :=
    mul_nonneg (by exact_mod_cast hpos) hclose
  unfold getValue
  linarith

/-- Witness for C8 amended at the initial state and a quiet bar. -/
theorem equity_nonneg_step_witness :
    StateOK (simStep defaultParams (1/1000) { bar := quietBar 10 10 0, act := BrokerAct.fill } (initState 100)) ∧
    0 ≤ getValue (quietBar 10 10 0)
      (simStep defaultParams (1/1000) { bar := quietBar 10 10 0, act := BrokerAct.fill } (initState 100)) :=
  equity_nonneg_step defaultParams (1/1000) { bar := quietBar 10 10 0, act := BrokerAct.fill }
    (initState 100)
    ⟨by norm_num [initState], by norm_num [initState], by intro o h; simp [initState] at h⟩
    (by norm_num [quietBar]) (by norm_num [quietBar]) (by norm_num) (by norm_num)
    (by intro o h; simp [initState] at h)

/-- C8 counterexample: all bar prices are non-negative and the initial
cash 100 is non-negative, yet after the forced minimum-size buy fills at
100 (costing 100.1 with commission) and the close drops to 0, recorded
equity is -1/10 < 0. -/
theorem nextStep_buy_eq (p : Params) (b : BarView) (s : SimState)
    (hord : s.order = none) (hflat : s.posSize = 0) (hsig : buySignal p b = true)
    (hcl : 0 < b.close) :
    nextStep p b s = recordPerf b { s with order := some { side := Side.Buy, size := sizerSize p b s }, created := s.created ++ [{ side := Side.Buy, size := sizerSize p b s }] } := by
  simp [nextStep, hord, hflat, hsig, hcl]

theorem nextStep_long_noSig (p : Params) (b : BarView) (s : SimState)
    (hord : s.order = none) (hlong : s.posSize ≠ 0) (hsig : sellSignal p b = false) :
    nextStep p b s = recordPerf b s := by
  simp [nextStep, hord, hlong, hsig]

theorem equity_nonneg_counterexample :
    (0:ℚ) ≤ 100 ∧
    (0 ≤ c8Input1.bar.close ∧ 0 ≤ c8Input1.bar.openPx ∧
     0 ≤ c8Input2.bar.close ∧ 0 ≤ c8Input2.bar.openPx) ∧
    (runSim defaultParams (1/1000) [c8Input1, c8Input2] (initState 100)).portfolio_values
      = [100, -1/10] ∧
    ¬ ((0:ℚ) ≤ -1/10) := by
  refine ⟨by norm_num, by norm_num [c8Input1, c8Bar1, c8Input2, quietBar], ?_, by norm_num⟩
  have hsig1 : buySignal defaultParams c8Bar1 = true := by
    norm_num [buySignal, c8Bar1, quietBar, crossUp, oLt, oGt, defaultParams]
  have hcl1 : (0:ℚ) < c8Bar1.close := by norm_num [c8Bar1, quietBar]
  have hsize : sizerSize defaultParams c8Bar1 (initState 100) = 1 := by
    rw [sizerSize, max_one_pyInt]
    have hfl : ⌊getValue c8Bar1 (initState 100) * defaultParams.risk_percent / (c8Bar1.close * (101/100))⌋ = 0 := by
      have hv : getValue c8Bar1 (initState 100) * defaultParams.risk_percent / (c8Bar1.close * (101/100)) = 2/101 := by
        norm_num [getValue, initState, c8Bar1, quietBar, defaultParams]
      rw [hv]
      norm_num [Int.floor_eq_zero_iff]
    rw [hfl]
    decide
  have hstep1 : simStep defaultParams (1/1000) c8Input1 (initState 100) = c8State1 := by
    have h1 : simStep defaultParams (1/1000) c8Input1 (initState 100)
        = nextStep defaultParams c8Bar1 (initState 100) := rfl
    rw [h1, nextStep_buy_eq defaultParams c8Bar1 (initState 100) rfl rfl hsig1 hcl1, hsize]
    simp [recordPerf, getValue, initState, c8State1, c8Bar1, quietBar]
  have hsig2 : sellSignal defaultParams (quietBar 0 100 1) = false := by
    norm_num [sellSignal, quietBar, crossDown, oLt, oGt, defaultParams]
  have hbrk : brokerStep (1/1000) (quietBar 0 100 1) BrokerAct.fill c8State1
      = { order := none, posSize := 1, cash := -1/10
          portfolio_values := [100], dates := [0], created := [{ side := Side.Buy, size := 1 }] } := by
    simp [brokerStep, c8State1, quietBar]
    norm_num
  have hstep2 : (simStep defaultParams (1/1000) c8Input2 c8State1).portfolio_values
      = [100, -1/10] := by
    have h1 : simStep defaultParams (1/1000) c8Input2 c8State1
        = nextStep defaultParams (quietBar 0 100 1)
            (brokerStep (1/1000) (quietBar 0 100 1) BrokerAct.fill c8State1) := rfl
    rw [h1, hbrk, nextStep_long_noSig _ _ _ rfl (by norm_num) hsig2, recordPerf_pv]
    norm_num [getValue, quietBar]
  show (runSim defaultParams (1/1000) [c8Input1, c8Input2] (initState 100)).portfolio_values
      = [100, -1/10]
  rw [runSim_cons, runSim_cons, runSim_nil, hstep1]
  exact hstep2

theorem upMoves_nonneg (l : List ℚ) : ∀ x ∈ upMoves l, 0 ≤ x := by
  induction l with
  | nil => intro x hx; simp [upMoves] at hx
  | cons a tail ih =>
    cases tail with
    | nil => intro x hx; simp [upMoves] at hx
    | cons b rest =>
      intro x hx
      simp only [upMoves] at hx
      rcases List.mem_cons.mp hx with h | h
      · rw [h]; exact le_max_right _ _
      · exact ih x h

theorem downMoves_nonneg (l : List ℚ) : ∀ x ∈ downMoves l, 0 ≤ x := by
  induction l with
  | nil => intro x hx; simp [downMoves] at hx
  | cons a tail ih =>
    cases tail with
    | nil => intro x hx; simp [downMoves] at hx
    | cons b rest =>
      intro x hx
      simp only [downMoves] at hx
      rcases List.mem_cons.mp hx with h | h
      · rw [h]; exact le_max_right _ _
      · exact ih x h

theorem wilderSmooth_nonneg (period : ℕ) (avg x : ℚ) (ha : 0 ≤ avg) (hx : 0 ≤ x) :
    0 ≤ wilderSmooth period avg x := by
  rcases Nat.eq_zero_or_pos period with h | h
  · subst h
    simp [wilderSmooth]
  · have h1 : (1:ℚ) ≤ (period : ℚ) := by exact_mod_cast h
    have hnum : 0 ≤ avg * ((period : ℚ) - 1) + x :=
      add_nonneg (mul_nonneg ha (by linarith)) hx
    exact div_nonneg hnum (by linarith)

theorem wilderFrom_nonneg (period : ℕ) (avg : ℚ) (l : List ℚ)
    (ha : 0 ≤ avg) (hl : ∀ x ∈ l, 0 ≤ x) : ∀ y ∈ wilderFrom period avg l, 0 ≤ y := by
  induction l generalizing avg with
  | nil => intro y hy; simp [wilderFrom] at hy
  | cons x rest ih =>
    intro y hy
    simp only [wilderFrom] at hy
    have hx0 : 0 ≤ x := hl x (List.mem_cons_self x rest)
    rcases List.mem_cons.mp hy with h | h
    · rw [h]; exact wilderSmooth_nonneg period avg x ha hx0
    · exact ih (wilderSmooth period avg x) (wilderSmooth_nonneg period avg x ha hx0)
        (fun z hz => hl z (List.mem_cons_of_mem x hz)) y h

theorem wilderAvgs_nonneg (period : ℕ) (moves : List ℚ) (hm : ∀ x ∈ moves, 0 ≤ x) :
    ∀ y ∈ wilderAvgs period moves, 0 ≤ y := by
  have hinit : 0 ≤ (moves.take period).sum / (period : ℚ) :=
    div_nonneg (List.sum_nonneg fun x hx => hm x (List.take_subset period moves hx))
      (Nat.cast_nonneg period)
  intro y hy
  rw [wilderAvgs] at hy
  rcases List.mem_cons.mp hy with h | h
  · rw [h]; exact hinit
  · exact wilderFrom_nonneg period _ _ hinit
      (fun z hz => hm z (List.drop_subset period moves hz)) y h

theorem rsiOf_bounds (u dn : ℚ) (hu : 0 ≤ u) (hd : 0 ≤ dn) :
    0 ≤ rsiOf u dn ∧ rsiOf u dn ≤ 100 := by
  unfold rsiOf
  split
  · norm_num
  · rename_i hne
    have hpos : 0 < u + dn := lt_of_le_of_ne (add_nonneg hu hd) (Ne.symm hne)
    constructor
    · positivity
    · rw [div_le_iff₀ hpos]
      linarith

theorem rsiZip_bounds (us ds : List ℚ) (hu : ∀ x ∈ us, 0 ≤ x) (hd : ∀ x ∈ ds, 0 ≤ x) :
    ∀ o ∈ rsiZip us ds, ∀ v, o = some v → 0 ≤ v ∧ v ≤ 100 := by
  induction us generalizing ds with
  | nil => intro o ho; simp [rsiZip] at ho
  | cons u us2 ih =>
    cases ds with
    | nil => intro o ho; simp [rsiZip] at ho
    | cons dn ds2 =>
      intro o ho v hv
      simp only [rsiZip] at ho
      rcases List.mem_cons.mp ho with h | h
      · rw [h] at hv
        injection hv with h2
        rw [← h2]
        exact rsiOf_bounds u dn (hu u (List.mem_cons_self u us2))
          (hd dn (List.mem_cons_self dn ds2))
      · exact ih ds2 (fun z hz => hu z (List.mem_cons_of_mem u hz))
          (fun z hz => hd z (List.mem_cons_of_mem dn hz)) o h v hv

/-- C9: every defined position of the RSI indicator output lies in
[0, 100], for any period and any finite price series: the smoothed gain
and loss averages are non-negative, so 100 x AG / (AG + AL) is squeezed
between 0 and 100 and the flat-window fallback 50 also lies inside. -/
theorem rsi_bounded (period : ℕ) (prices : List ℚ) (i : ℕ) (v : ℚ)
    (h : (rsiSeries period prices).get? i = some (some v)) :
    0 ≤ v ∧ v ≤ 100 := by
  have hmem : some v ∈ rsiSeries period prices := List.get?_mem h
  rw [rsiSeries] at hmem
  have hmem2 : some v ∈ List.replicate period (none : Option ℚ)
      ++ rsiZip (wilderAvgs period (upMoves prices)) (wilderAvgs period (downMoves prices)) :=
    List.take_subset _ _ hmem
  rcases List.mem_append.mp hmem2 with h1 | h1
  · exact Option.noConfusion (List.eq_of_mem_replicate h1)
  · exact rsiZip_bounds _ _ (wilderAvgs_nonneg _ _ (upMoves_nonneg prices))
      (wilderAvgs_nonneg _ _ (downMoves_nonneg prices)) (some v) h1 v rfl

/-- Witness for C9: RSI(1) over the prices [1, 2] is defined at index 1
with value 100, which the theorem brackets into [0, 100]. -/
theorem rsi_bounded_witness :
    (rsiSeries 1 [1, 2]).get? 1 = some (some 100) ∧ (0:ℚ) ≤ 100 ∧ (100:ℚ) ≤ 100 :=
  have h : (rsiSeries 1 [1, 2]).get? 1 = some (some 100) := by
    norm_num [rsiSeries, upMoves, downMoves, wilderAvgs, wilderFrom, wilderSmooth, rsiZip, rsiOf]
  ⟨h, (rsi_bounded 1 [1, 2] 1 100 h).1, (rsi_bounded 1 [1, 2] 1 100 h).2⟩
